import Mathlib

/-!
Verification of the numena matching engine core (optimized-lob).

Shallow embedding conventions:
* Machine integers are `Nat` (for u32/u64/u128 values) and `Int` (for the
  signed i32 book price), with explicit `% 2^w` where overflow matters.
* Rust `Vec<Option<T>>` index maps (the order index, the book vector) are
  embedded as a length plus a total function `Nat → Option T`; all writes go
  through the same bounds checks the source performs, so slots at or beyond
  the length are always `none`.
* Byte arrays (`[u8; 20]`, `[u8; 65]`) are `List Nat`.
* The repository modules `level.rs`, `orderbook.rs` and `price.rs` are
  referenced by the sources but are not available; their definitions are
  modelled from the spec (sections 3, 4.1, 4.3) and are marked as such.
-/

/-- Constant from src/optimized-lob/src/utils.rs. -/
def INITIAL_ORDER_COUNT : Nat := 2 ^ 20

/-- Constant from src/optimized-lob/src/utils.rs. -/
def MAX_BOOKS : Nat := 2 ^ 14

/-- Interpret an unsigned 32-bit value as a signed i32 (Rust `as i32` cast). -/
def u32_as_i32 (n : Nat) : Int :=
  if n % 2 ^ 32 < 2 ^ 31 then ((n % 2 ^ 32 : Nat) : Int) else ((n % 2 ^ 32 : Nat) : Int) - 2 ^ 32

/-- Modelled from the spec: price.rs is not under src/. Spec section 3: a price
is a signed 32-bit integer; `absolute()` returns the external magnitude. -/
def Price.absolute (p : Int) : Nat := p.natAbs

/-- Modelled from the spec: price.rs is not under src/. Spec section 3:
`is_bid()` returns true iff the stored value is strictly positive. -/
def Price.is_bid (p : Int) : Bool := 0 < p

/-- Modelled from the spec: price.rs is not under src/. Spec section 4.3: for a
bid the external unsigned price p is stored as +p, for an ask as -p
(matching the inline cast in OrderBookManager::add_order). -/
def Price.from_u32 (p : Nat) (is_bid : Bool) : Int :=
  if is_bid then u32_as_i32 p else -(u32_as_i32 p)

/-- Order record (src/optimized-lob/src/order.rs struct Order). -/
structure Order where
  level_id : Nat
  book_id : Nat
  qty : Nat
  trader : Option (List Nat)
  nonce : Option Nat
  expiry : Option Nat
  signature : Option (List Nat)
deriving Repr, DecidableEq

/-- Order::new (src/optimized-lob/src/order.rs). -/
def Order.new (qty level_id book_id : Nat) (trader : Option (List Nat))
    (nonce expiry : Option Nat) (signature : Option (List Nat)) : Order :=
  ⟨level_id, book_id, qty, trader, nonce, expiry, signature⟩

/-- Order index keyed by OrderId (src/optimized-lob/src/order.rs struct OidMap):
a dense `Vec<Option<Order>>`, embedded as its length plus a total lookup
function (slots at or beyond `len` are `none` by construction). -/
structure OidMap where
  len : Nat
  data : Nat → Option Order

/-- OidMap::new: INITIAL_ORDER_COUNT empty slots. -/
def OidMap.new : OidMap := ⟨INITIAL_ORDER_COUNT, fun _ => none⟩

/-- OidMap::get: in-range lookup. -/
def OidMap.get (m : OidMap) (oid : Nat) : Option Order :=
  if oid < m.len then m.data oid else none

/-- OidMap::reserve: grow the vector to oid+1 slots when oid is out of range
(Vec::resize fills the fresh slots with None). -/
def OidMap.reserve (m : OidMap) (oid : Nat) : OidMap :=
  if m.len ≤ oid then ⟨oid + 1, fun j => if j < m.len then m.data j else none⟩ else m

/-- OidMap::insert: resize if needed (fresh slots None), then overwrite the
slot. -/
def OidMap.insert (m : OidMap) (oid : Nat) (o : Order) : OidMap :=
  let m' := if m.len ≤ oid then (⟨oid + 1, fun j => if j < m.len then m.data j else none⟩ : OidMap) else m
  { m' with data := fun j => if j = oid then some o else m'.data j }

/-- OidMap::remove: clear the slot when in range. -/
def OidMap.remove (m : OidMap) (oid : Nat) : OidMap :=
  if oid < m.len then
    { m with data := fun j => if j = oid then none else m.data j }
  else m

/-- OidMap::update_qty: subtract qty from the stored order's quantity
(the source performs `order.qty -= qty`). -/
def OidMap.update_qty (m : OidMap) (oid qty : Nat) : OidMap :=
  if oid < m.len then
    { m with data := fun j => if j = oid then (m.data j).map (fun o => { o with qty := o.qty - qty }) else m.data j }
  else m

/-- Modelled from the spec: level.rs is not under src/. Spec section 3: a Level
holds the stored signed price and the cumulative size. -/
structure Level where
  price : Int
  size : Nat
deriving Repr, DecidableEq

/-- Level::default (used by LevelPool::alloc when growing). -/
def Level.default : Level := ⟨0, 0⟩

/-- Level pool (src/optimized-lob/src/pool.rs struct LevelPool). The Lean list
head of `free_list` is the Rust Vec's end, so push/pop are cons/head. -/
structure LevelPool where
  levels : List Level
  free_list : List Nat
deriving Repr, DecidableEq

/-- LevelPool::new. -/
def LevelPool.new : LevelPool := ⟨[], []⟩

/-- LevelPool::alloc: pop the free list if non-empty, else push a default
Level and hand out the fresh index. -/
def LevelPool.alloc : LevelPool → Nat × LevelPool
  | ⟨lvs, []⟩ => (lvs.length, ⟨lvs ++ [Level.default], []⟩)
  | ⟨lvs, id :: rest⟩ => (id, ⟨lvs, rest⟩)

/-- LevelPool::free: push the id onto the free list. -/
def LevelPool.free (p : LevelPool) (id : Nat) : LevelPool :=
  { p with free_list := id :: p.free_list }

/-- LevelPool::get. -/
def LevelPool.get (p : LevelPool) (id : Nat) : Option Level := p.levels.get? id

/-- LevelPool::set_level: overwrite the slot when in range (List.set is a
no-op out of range, like the source's get_mut guard). -/
def LevelPool.set_level (p : LevelPool) (id : Nat) (l : Level) : LevelPool :=
  { p with levels := p.levels.set id l }

/-- Modelled from the spec: orderbook.rs is not under src/. Spec section 3: an
OrderBook holds a LevelPool and per-side sequences of (LevelId, signed price)
handles, each sorted by signed price descending. -/
structure OrderBook where
  level_pool : LevelPool
  bids : List (Nat × Int)
  asks : List (Nat × Int)
deriving Repr, DecidableEq

/-- OrderBook::new. -/
def OrderBook.new : OrderBook := ⟨LevelPool.new, [], []⟩

/-- Insert a (LevelId, signed price) handle into a side sequence at the unique
position preserving descending signed-price order (spec section 4.3). -/
def insertLevelDesc (e : Nat × Int) : List (Nat × Int) → List (Nat × Int)
  | [] => [e]
  | h :: t => if h.2 < e.2 then e :: h :: t else h :: insertLevelDesc e t

/-- Modelled from the spec: orderbook.rs is not under src/. Spec section 4.3
add_order: locate the level with this signed price on the side implied by the
sign; if none, allocate a LevelId, initialise its Level with (price, qty) and
insert the handle in descending order; otherwise increment the Level's size.
Record the LevelId in the order record. Returns the updated order and book. -/
def OrderBook.add_order (b : OrderBook) (o : Order) (price : Int) (qty : Nat) :
    Order × OrderBook :=
  let side := if Price.is_bid price then b.bids else b.asks
  match side.find? (fun e => e.2 = price) with
  | some e =>
      let pool :=
        match b.level_pool.get e.1 with
        | some l => b.level_pool.set_level e.1 { l with size := l.size + qty }
        | none => b.level_pool
      ({ o with level_id := e.1 }, { b with level_pool := pool })
  | none =>
      let a := b.level_pool.alloc
      let pool := a.2.set_level a.1 ⟨price, qty⟩
      let b' :=
        if Price.is_bid price then
          { b with level_pool := pool, bids := insertLevelDesc (a.1, price) b.bids }
        else
          { b with level_pool := pool, asks := insertLevelDesc (a.1, price) b.asks }
      ({ o with level_id := a.1 }, b')

/-- Modelled from the spec: orderbook.rs is not under src/. Spec section 4.3
remove_order: decrement the Level's size by the order's quantity; if it
reaches zero, unlink the handle from its side sequence and free the LevelId. -/
def OrderBook.remove_order (b : OrderBook) (o : Order) : OrderBook :=
  match b.level_pool.get o.level_id with
  | none => b
  | some l =>
      let ns := l.size - o.qty
      if ns = 0 then
        let pool := (b.level_pool.set_level o.level_id { l with size := 0 }).free o.level_id
        if Price.is_bid l.price then
          { b with level_pool := pool, bids := b.bids.filter (fun e => e.1 ≠ o.level_id) }
        else
          { b with level_pool := pool, asks := b.asks.filter (fun e => e.1 ≠ o.level_id) }
      else
        { b with level_pool := b.level_pool.set_level o.level_id { l with size := ns } }

/-- Modelled from the spec: orderbook.rs is not under src/. Spec section 4.3
reduce_order: decrement the Level's size by qty. -/
def OrderBook.reduce_order (b : OrderBook) (o : Order) (qty : Nat) : OrderBook :=
  match b.level_pool.get o.level_id with
  | none => b
  | some l => { b with level_pool := b.level_pool.set_level o.level_id { l with size := l.size - qty } }

/-- Modelled from the spec: orderbook.rs is not under src/. best_bid: the
signed price at the head of the bid sequence. -/
def OrderBook.get_best_bid (b : OrderBook) : Option Int := b.bids.head?.map (fun e => e.2)

/-- Modelled from the spec: orderbook.rs is not under src/. best_ask: the
signed price at the head of the ask sequence. -/
def OrderBook.get_best_ask (b : OrderBook) : Option Int := b.asks.head?.map (fun e => e.2)

/-- Modelled from the spec: orderbook.rs is not under src/. best_bid_level. -/
def OrderBook.get_best_bid_level (b : OrderBook) : Option Nat := b.bids.head?.map (fun e => e.1)

/-- Modelled from the spec: orderbook.rs is not under src/. best_ask_level. -/
def OrderBook.get_best_ask_level (b : OrderBook) : Option Nat := b.asks.head?.map (fun e => e.1)

/-- Book manager (src/optimized-lob/src/orderbook_manager.rs): a vector of
optional OrderBooks (fixed MAX_BOOKS slots, embedded as length + function)
plus the shared order index. -/
structure OrderBookManager where
  books_len : Nat
  books : Nat → Option OrderBook
  oid_map : OidMap

/-- OrderBookManager::new. -/
def OrderBookManager.new : OrderBookManager := ⟨MAX_BOOKS, fun _ => none, OidMap.new⟩

/-- In-range read of the book vector (Rust `self.books.get(idx)` flattened). -/
def OrderBookManager.getBook (m : OrderBookManager) (i : Nat) : Option OrderBook :=
  if i < m.books_len then m.books i else none

/-- In-range write of the book vector (Rust `self.books[idx] = ...`; the
source panics out of range, which no claim exercises). -/
def OrderBookManager.setBook (m : OrderBookManager) (i : Nat) (b : OrderBook) : OrderBookManager :=
  if i < m.books_len then { m with books := fun j => if j = i then some b else m.books j } else m

/-- OrderBookManager::add_order (src/optimized-lob/src/orderbook_manager.rs
lines 63-96): sign the price by side, reserve the index slot, lazily create
the book, route to the book's add_order, then insert the (level-annotated)
order into the index. -/
def OrderBookManager.add_order (m : OrderBookManager) (order_id book_id qty price32 : Nat)
    (is_bid : Bool) (trader : Option (List Nat)) (nonce expiry : Option Nat)
    (signature : Option (List Nat)) : OrderBookManager :=
  let price : Int := if is_bid then u32_as_i32 price32 else -(u32_as_i32 price32)
  let m1 := { m with oid_map := m.oid_map.reserve order_id }
  let order := Order.new qty 0 book_id trader nonce expiry signature
  let m2 := if (m1.getBook book_id).isNone then m1.setBook book_id OrderBook.new else m1
  match m2.getBook book_id with
  | some bk =>
      let r := bk.add_order order price qty
      let m3 := m2.setBook book_id r.2
      { m3 with oid_map := m3.oid_map.insert order_id r.1 }
  | none => { m2 with oid_map := m2.oid_map.insert order_id order }

/-- OrderBookManager::remove_order (lines 108-119): route to the owning book
if the order is live, then clear the index slot unconditionally. -/
def OrderBookManager.remove_order (m : OrderBookManager) (order_id : Nat) : OrderBookManager :=
  let m1 :=
    match m.oid_map.get order_id with
    | some o =>
        match m.getBook o.book_id with
        | some bk => m.setBook o.book_id (bk.remove_order o)
        | none => m
    | none => m
  { m1 with oid_map := m1.oid_map.remove order_id }

/-- OrderBookManager::cancel_order (lines 131-143): reduce the level via the
book if live, then subtract from the indexed order's quantity. -/
def OrderBookManager.cancel_order (m : OrderBookManager) (order_id qty : Nat) : OrderBookManager :=
  let m1 :=
    match m.oid_map.get order_id with
    | some o =>
        match m.getBook o.book_id with
        | some bk => m.setBook o.book_id (bk.reduce_order o qty)
        | none => m
    | none => m
  { m1 with oid_map := m1.oid_map.update_qty order_id qty }

/-- OrderBookManager::execute_order (lines 156-178): full executions route to
removal (book and index), partial ones to reduction; missing ids fall
through untouched. -/
def OrderBookManager.execute_order (m : OrderBookManager) (order_id qty : Nat) : OrderBookManager :=
  match m.oid_map.get order_id with
  | none => m
  | some o =>
      if o.qty = qty then
        let m1 :=
          match m.getBook o.book_id with
          | some bk => m.setBook o.book_id (bk.remove_order o)
          | none => m
        { m1 with oid_map := m1.oid_map.remove order_id }
      else
        let m1 :=
          match m.getBook o.book_id with
          | some bk => m.setBook o.book_id (bk.reduce_order o qty)
          | none => m
        { m1 with oid_map := m1.oid_map.update_qty order_id qty }

/-- OrderBookManager::replace_order (lines 199-227): capture side (sign of the
current Level's price) and book from the live order, remove it, then add the
replacement through add_order with no authentication fields. When the order
is missing, the captured defaults (bid, book 0) are used unchanged and the
add still happens. The source unwraps the level lookup; `Level.default`
stands in for the impossible out-of-pool case. -/
def OrderBookManager.replace_order (m : OrderBookManager) (order_id new_order_id new_qty new_price : Nat) :
    OrderBookManager :=
  match m.oid_map.get order_id with
  | some o =>
      (match m.getBook o.book_id with
       | some bk =>
           let is_bid := Price.is_bid (((bk.level_pool.get o.level_id).getD Level.default).price)
           let book_id := o.book_id
           let m1 := m.setBook o.book_id (bk.remove_order o)
           let m2 := { m1 with oid_map := m1.oid_map.remove order_id }
           m2.add_order new_order_id book_id new_qty new_price is_bid none none none none
       | none =>
           let m2 := { m with oid_map := m.oid_map.remove order_id }
           m2.add_order new_order_id 0 new_qty new_price true none none none none)
  | none => m.add_order new_order_id 0 new_qty new_price true none none none none

/-- OrderBookManager::get_best_bid (lines 231-236). -/
def OrderBookManager.get_best_bid (m : OrderBookManager) (book_id : Nat) : Option Int :=
  (m.getBook book_id).bind OrderBook.get_best_bid

/-- OrderBookManager::get_best_ask (lines 240-245). -/
def OrderBookManager.get_best_ask (m : OrderBookManager) (book_id : Nat) : Option Int :=
  (m.getBook book_id).bind OrderBook.get_best_ask

/-- Linear scan of the order index in index order for the first live order on
the given book and level (the for-loop over OidMap::iter in
OrderBookManager::get_next_match); fuel is the index length. -/
def scanMatch (m : OidMap) (book lv : Nat) : Nat → Nat → Option (Nat × Nat)
  | 0, _ => none
  | fuel + 1, i =>
      match m.get i with
      | some o =>
          if o.book_id = book ∧ o.level_id = lv then some (i, o.qty)
          else scanMatch m book lv fuel (i + 1)
      | none => scanMatch m book lv fuel (i + 1)

/-- OrderBookManager::get_next_match (lines 250-284): fetch the best level on
the opposite side, check the cross predicate on absolute prices, then scan
the order index for the earliest order at that level. -/
def OrderBookManager.get_next_match (m : OrderBookManager) (book_id : Nat) (is_bid : Bool)
    (price : Int) : Option (Nat × Nat) :=
  match m.getBook book_id with
  | none => none
  | some bk =>
      match (if is_bid then bk.get_best_ask_level else bk.get_best_bid_level) with
      | none => none
      | some lv =>
          match bk.level_pool.get lv with
          | none => none
          | some lvl =>
              match is_bid with
              | true =>
                  if Price.absolute lvl.price ≤ Price.absolute price then
                    scanMatch m.oid_map book_id lv m.oid_map.len 0
                  else none
              | false =>
                  if Price.absolute price ≤ Price.absolute lvl.price then
                    scanMatch m.oid_map book_id lv m.oid_map.len 0
                  else none

/-- Match record (src/optimized-lob/src/matching.rs struct MatchDetails). -/
structure MatchDetails where
  maker_order : Order
  taker_order : Order
  exec_qty : Nat
  exec_price : Nat
  maker_is_buyer : Bool
deriving Repr, DecidableEq

/-- Match loop body of MatchingEngine::match_order (src/optimized-lob/src/
matching.rs lines 74-105): while quantity remains, take the next match,
execute it against the book, then look the maker up again in the index and
emit a record only if it is still there. `fuel` bounds the iteration count
(the Rust loop terminates whenever every matched maker has positive
quantity). -/
def matchLoop (book_id qty0 : Nat) (price : Int) (is_bid : Bool)
    (trader : Option (List Nat)) (nonce expiry : Option Nat) (signature : Option (List Nat)) :
    Nat → OrderBookManager → Nat → Nat × List MatchDetails × OrderBookManager
  | 0, m, remaining => (remaining, [], m)
  | fuel + 1, m, remaining =>
      if remaining > 0 then
        match m.get_next_match book_id is_bid price with
        | some rm =>
            let exec := min remaining rm.2
            let m' := m.execute_order rm.1 exec
            let remaining' := remaining - exec
            let hd : List MatchDetails :=
              match m'.oid_map.get rm.1 with
              | some maker =>
                  [⟨maker, Order.new qty0 0 book_id trader nonce expiry signature,
                    exec, Price.absolute price % 2 ^ 32, !is_bid⟩]
              | none => []
            let r := matchLoop book_id qty0 price is_bid trader nonce expiry signature fuel m' remaining'
            (r.1, hd ++ r.2.1, r.2.2)
        | none => (remaining, [], m)
      else (remaining, [], m)

/-- MatchingEngine::match_order (src/optimized-lob/src/matching.rs lines
30-124): internalise the price, probe the opposite best price, run the match
loop when crossing, and rest any residual quantity. Returns the remaining
quantity, the emitted records, and the updated manager. -/
def MatchingEngine.match_order (m : OrderBookManager) (order_id book_id qty price32 : Nat)
    (is_bid : Bool) (trader : Option (List Nat)) (nonce expiry : Option Nat)
    (signature : Option (List Nat)) (fuel : Nat) : Nat × List MatchDetails × OrderBookManager :=
  let price := Price.from_u32 price32 is_bid
  let opposite := if is_bid then m.get_best_ask book_id else m.get_best_bid book_id
  let can_match : Bool :=
    match opposite with
    | some bp =>
        if is_bid then decide (Price.absolute bp ≤ Price.absolute price)
        else decide (Price.absolute price ≤ Price.absolute bp)
    | none => false
  let r :=
    if can_match then matchLoop book_id qty price is_bid trader nonce expiry signature fuel m qty
    else (qty, [], m)
  let m' :=
    if r.1 > 0 then
      r.2.2.add_order order_id book_id r.1 (Price.absolute price % 2 ^ 32) is_bid trader nonce expiry signature
    else r.2.2
  (r.1, r.2.1, m')

/-- Market configuration (src/optimized-lob/src/market.rs struct MarketConfig). -/
structure MarketConfig where
  base_token : List Nat
  security_token : List Nat
  fee_recipient : List Nat
  pool : List Nat
  signature_type : Nat
deriving Repr, DecidableEq

/-- Settlement signature components (src/optimized-lob/src/translator.rs). -/
structure SettlementSignature where
  signature_type : Nat
  v : Nat
  r : List Nat
  s : List Nat
deriving Repr, DecidableEq

/-- Settlement record (src/optimized-lob/src/translator.rs struct
SettlementOrder); u128 amounts are Nat. -/
structure SettlementOrder where
  maker_token : List Nat
  taker_token : List Nat
  maker_amount : Nat
  taker_amount : Nat
  maker : List Nat
  taker : List Nat
  fee_recipient : List Nat
  pool : List Nat
  expiration : Nat
  salt : Nat
  maker_is_buyer : Bool
  maker_signature : SettlementSignature
  taker_signature : SettlementSignature
deriving Repr, DecidableEq

/-- extract_signature (src/optimized-lob/src/translator.rs lines 97-104):
r = bytes 0..32, s = bytes 32..64, v = byte 64, type from the market config. -/
def extract_signature (sig : List Nat) (sig_type : Nat) : SettlementSignature :=
  ⟨sig_type, sig.getD 64 0, sig.take 32, (sig.drop 32).take 32⟩

/-- translate_to_settlement (src/optimized-lob/src/translator.rs lines 39-94):
the `?` chain requires, in source order, the maker signature, taker
signature, maker trader, taker trader, maker expiry and maker nonce; the
u128 amount products carry an explicit 2^128 reduction. -/
def translate_to_settlement (maker_order taker_order : Order) (exec_qty exec_price : Nat)
    (maker_is_buyer : Bool) (cfg : MarketConfig) : Option SettlementOrder :=
  match maker_order.signature with
  | none => none
  | some msig =>
    match taker_order.signature with
    | none => none
    | some tsig =>
      let maker_signature := extract_signature msig cfg.signature_type
      let taker_signature := extract_signature tsig cfg.signature_type
      let tokens :=
        if maker_is_buyer then (cfg.base_token, cfg.security_token)
        else (cfg.security_token, cfg.base_token)
      let amounts :=
        if maker_is_buyer then ((exec_price * exec_qty) % 2 ^ 128, exec_qty)
        else (exec_qty, (exec_price * exec_qty) % 2 ^ 128)
      match maker_order.trader with
      | none => none
      | some maker =>
        match taker_order.trader with
        | none => none
        | some taker =>
          match maker_order.expiry with
          | none => none
          | some expiration =>
            match maker_order.nonce with
            | none => none
            | some nonce =>
              some ⟨tokens.1, tokens.2, amounts.1, amounts.2, maker, taker,
                cfg.fee_recipient, cfg.pool, expiration, nonce, maker_is_buyer,
                maker_signature, taker_signature⟩

/-- translate_matches (src/optimized-lob/src/translator.rs lines 107-124):
filter_map of translate_to_settlement over the batch. -/
def translate_matches (ms : List MatchDetails) (cfg : MarketConfig) : List SettlementOrder :=
  ms.filterMap (fun md =>
    translate_to_settlement md.maker_order md.taker_order md.exec_qty md.exec_price
      md.maker_is_buyer cfg)

/-- Intake error taxonomy (src/optimized-lob/src/order_intake.rs). -/
inductive OrderIntakeError where
  | InvalidQuantity
  | InvalidPrice
  | InvalidBookId
  | InvalidTrader
  | InvalidSignature
  | InvalidNonce
deriving Repr, DecidableEq

/-- Value of one hex digit (hex crate semantics: 0-9, a-f, A-F). -/
def hexVal (c : Char) : Option Nat :=
  if '0' ≤ c ∧ c ≤ '9' then some (c.toNat - '0'.toNat)
  else if 'a' ≤ c ∧ c ≤ 'f' then some (c.toNat - 'a'.toNat + 10)
  else if 'A' ≤ c ∧ c ≤ 'F' then some (c.toNat - 'A'.toNat + 10)
  else none

/-- hex::decode: fails on odd length or any non-hex character, else pairs of
digits become bytes. -/
def hexDecode : List Char → Option (List Nat)
  | [] => some []
  | [_] => none
  | c1 :: c2 :: rest =>
      match hexVal c1, hexVal c2, hexDecode rest with
      | some hi, some lo, some bs => some ((16 * hi + lo) :: bs)
      | _, _, _ => none

/-- Rust `trim_start_matches("0x")`: strip every leading "0x" occurrence. -/
def trim0x : List Char → List Char
  | '0' :: 'x' :: rest => trim0x rest
  | l => l

/-- Frontend submission (src/optimized-lob/src/order_intake.rs struct
OrderSubmission); strings are char lists. -/
structure OrderSubmission where
  book_id : List Char
  price : Int
  quantity : Nat
  trader : List Char
  nonce : Nat
  expiry : Option Nat
  signature : List Char

/-- Modelled from the spec: BookId::from_str hashes the name with the standard
library's DefaultHasher, whose output is unspecified; only that it always
returns Ok matters to the intake (spec section 6 allows any mapping). -/
def bookIdFromStr (s : List Char) : Except OrderIntakeError Nat :=
  Except.ok ((s.foldl (fun a c => a + c.toNat) 0) % 2 ^ 32)

/-- Modelled from the spec: Order::new_submission is not under src/ (order.rs
lacks it); per spec section 3 an order carries quantity, price, book and the
authentication tuple, so the validated submission is their record. -/
structure SubmittedOrder where
  qty : Nat
  price : Int
  book_id : Nat
  trader : List Nat
  nonce : Nat
  expiry : Nat
  signature : List Nat
deriving Repr, DecidableEq

/-- OrderSubmission::into_order (src/optimized-lob/src/order_intake.rs lines
46-82): reject zero quantity, zero price, a trader that does not decode to
exactly 20 bytes, and undecodable signature hex; the decoded signature is
truncated to at most 65 bytes and zero-padded to exactly 65; an absent
expiry becomes u64::MAX. -/
def into_order (sub : OrderSubmission) : Except OrderIntakeError SubmittedOrder :=
  if sub.quantity = 0 then Except.error OrderIntakeError.InvalidQuantity
  else if sub.price = 0 then Except.error OrderIntakeError.InvalidPrice
  else
    match hexDecode (trim0x sub.trader) with
    | none => Except.error OrderIntakeError.InvalidTrader
    | some trader_bytes =>
      if trader_bytes.length ≠ 20 then Except.error OrderIntakeError.InvalidTrader
      else
        match hexDecode (trim0x sub.signature) with
        | none => Except.error OrderIntakeError.InvalidSignature
        | some sig_bytes =>
          let sig_len := min sig_bytes.length 65
          let signature := sig_bytes.take sig_len ++ List.replicate (65 - sig_len) 0
          match bookIdFromStr sub.book_id with
          | Except.error e => Except.error e
          | Except.ok bid =>
              Except.ok ⟨sub.quantity, sub.price, bid, trader_bytes, sub.nonce,
                sub.expiry.getD (2 ^ 64 - 1), signature⟩

/-- Spec section 8 scenario 3 book: resting sells id=1 qty=50 price=100 and
id=2 qty=40 price=101 on book 0. -/
def walkBookState : OrderBookManager :=
  ((OrderBookManager.new).add_order 1 0 50 100 false (some (List.replicate 20 1)) (some 1)
      (some (2 ^ 64 - 1)) (some (List.replicate 65 0))).add_order 2 0 40 101 false
    (some (List.replicate 20 1)) (some 1) (some (2 ^ 64 - 1)) (some (List.replicate 65 0))

/-- Spec section 8 scenario 3 taker: buy id=4 qty=90 price=102 against
`walkBookState` (fuel 91 is ample: each match consumes at least one unit). -/
def walkBookResult : Nat × List MatchDetails × OrderBookManager :=
  MatchingEngine.match_order walkBookState 4 0 90 102 true (some (List.replicate 20 2)) (some 2)
    (some (2 ^ 64 - 1)) (some (List.replicate 65 0)) 91

/-- The concrete book 0 of `walkBookState` (two ask levels, empty bid side). -/
def walkBookAskBook : OrderBook :=
  ⟨⟨[⟨-100, 50⟩, ⟨-101, 40⟩], []⟩, [], [(0, -100), (1, -101)]⟩

/-- Spec section 8 scenario 1 book: resting sell id=1 qty=100 price=100. -/
def basicFillState : OrderBookManager :=
  (OrderBookManager.new).add_order 1 0 100 100 false (some (List.replicate 20 1)) (some 1)
    (some (2 ^ 64 - 1)) (some (List.replicate 65 0))

/-- Spec section 8 scenario 5 book: resting bid id=1 qty=10 price=50 with
authentication fields. -/
def bidReplaceState : OrderBookManager :=
  (OrderBookManager.new).add_order 1 0 10 50 true (some (List.replicate 20 1)) (some 1) (some 7)
    (some (List.replicate 65 0))

/-- Market configuration of spec section 8 scenario 6. -/
def cfg0 : MarketConfig :=
  ⟨List.replicate 20 1, List.replicate 20 2, List.replicate 20 3, List.replicate 20 4, 1⟩

/-- A maker order with a full authentication tuple. -/
def makerOrder0 : Order :=
  ⟨0, 0, 50, some (List.replicate 20 5), some 1, some 7, some (List.replicate 65 1)⟩

/-- A taker order lacking nonce and expiry but carrying trader and signature. -/
def takerNoNonceOrder : Order :=
  ⟨0, 0, 30, some (List.replicate 20 7), none, none, some (List.replicate 65 3)⟩

/-- A taker order with a full authentication tuple. -/
def takerFullOrder : Order :=
  ⟨0, 0, 30, some (List.replicate 20 7), some 3, some 9, some (List.replicate 65 3)⟩

/-- A match whose taker lacks nonce and expiry. -/
def mdTakerNoNonce : MatchDetails := ⟨makerOrder0, takerNoNonceOrder, 30, 100, false⟩

/-- A match with full authentication on both sides. -/
def mdFull : MatchDetails := ⟨makerOrder0, takerFullOrder, 30, 100, false⟩

/-- A submission whose signature hex decodes to 66 bytes (132 hex digits),
with valid quantity, price and 20-byte trader. -/
def sub66 : OrderSubmission :=
  ⟨['a'], 5, 10, List.replicate 40 '1', 1, none, List.replicate 132 '2'⟩

/-- A submission with zero quantity. -/
def subZeroQty : OrderSubmission :=
  ⟨['a'], 5, 0, List.replicate 40 '1', 1, none, List.replicate 130 '2'⟩

/-- Does the order index hold, at slot i, a live order on the given book and
level (the loop body test of OrderBookManager::get_next_match)? -/
def oidMatchesLevel (m : OidMap) (book lv i : Nat) : Bool :=
  match m.get i with
  | some o => o.book_id == book && o.level_id == lv
  | none => false

/-- Slot j holds the earliest live order on (book, lv) and its quantity is q:
the value OrderBookManager::get_next_match is specified to return. -/
def leastMatchAt (m : OidMap) (book lv j q : Nat) : Prop :=
  oidMatchesLevel m book lv j = true ∧ (m.get j).map Order.qty = some q ∧
  ∀ k < j, oidMatchesLevel m book lv k = false

instance (m : OidMap) (book lv j q : Nat) : Decidable (leastMatchAt m book lv j q) := by
  unfold leastMatchAt
  infer_instance

/-- The authentication fields translate_to_settlement actually requires (its
`?` chain): maker trader/signature/nonce/expiry and taker trader/signature. -/
def translateRequired (md : MatchDetails) : Bool :=
  md.maker_order.trader.isSome && md.maker_order.signature.isSome &&
  md.maker_order.nonce.isSome && md.maker_order.expiry.isSome &&
  md.taker_order.trader.isSome && md.taker_order.signature.isSome

/-- The settlement record translate_to_settlement produces when every required
field is present (the defaults are never exposed in that case). -/
def mkSettlement (mo tk : Order) (q p : Nat) (b : Bool) (cfg : MarketConfig) : SettlementOrder :=
  ⟨if b then cfg.base_token else cfg.security_token,
   if b then cfg.security_token else cfg.base_token,
   if b then (p * q) % 2 ^ 128 else q,
   if b then q else (p * q) % 2 ^ 128,
   mo.trader.getD [], tk.trader.getD [], cfg.fee_recipient, cfg.pool,
   mo.expiry.getD 0, mo.nonce.getD 0, b,
   extract_signature (mo.signature.getD []) cfg.signature_type,
   extract_signature (tk.signature.getD []) cfg.signature_type⟩

/-- The resting order of `basicFillState` (id 1). -/
def bfOrder : Order :=
  ⟨0, 0, 100, some (List.replicate 20 1), some 1, some (2 ^ 64 - 1), some (List.replicate 65 0)⟩

/-- Book 0 of `basicFillState`: one ask level at signed -100 with size 100. -/
def bfBook : OrderBook := ⟨⟨[⟨-100, 100⟩], []⟩, [], [(0, -100)]⟩

/-- The resting order of `bidReplaceState` (id 1). -/
def brOrder : Order :=
  ⟨0, 0, 10, some (List.replicate 20 1), some 1, some 7, some (List.replicate 65 0)⟩

/-- Book 0 of `bidReplaceState`: one bid level at signed +50 with size 10. -/
def brBook : OrderBook := ⟨⟨[⟨50, 10⟩], []⟩, [(0, 50)], []⟩

/-- The settlement produced for `mdFull` under `cfg0`. -/
def stFull : SettlementOrder := mkSettlement makerOrder0 takerFullOrder 30 100 false cfg0

/-- The single match record the basic-fill taker (buy 60 at 100) produces:
the maker snapshot already shows the post-execution quantity 40. -/
def mdBasic : MatchDetails :=
  ⟨⟨0, 0, 40, some (List.replicate 20 1), some 1, some (2 ^ 64 - 1), some (List.replicate 65 0)⟩,
   ⟨0, 0, 60, some (List.replicate 20 2), some 2, some (2 ^ 64 - 1), some (List.replicate 65 0)⟩,
   60, 100, false⟩

theorem OidMap.get_reserve (m : OidMap) (oid j : Nat) : (m.reserve oid).get j = m.get j := by
  unfold OidMap.reserve OidMap.get
  by_cases h : m.len ≤ oid
  · by_cases hj : j < m.len
    · have h1 : j < oid + 1 := by omega
      simp [h, hj, h1]
    · by_cases h2 : j < oid + 1 <;> simp [h, hj, h2]
  · simp [h]

theorem OidMap.get_insert_self (m : OidMap) (oid : Nat) (o : Order) :
    (m.insert oid o).get oid = some o := by
  unfold OidMap.insert OidMap.get
  by_cases h : m.len ≤ oid
  · simp [h]
  · have : oid < m.len := by omega
    simp [h, this]

theorem OidMap.get_insert_ne (m : OidMap) (oid : Nat) (o : Order) (j : Nat) (h : j ≠ oid) :
    (m.insert oid o).get j = m.get j := by
  unfold OidMap.insert OidMap.get
  by_cases hl : m.len ≤ oid
  · by_cases hj : j < m.len
    · have h1 : j < oid + 1 := by omega
      simp [hl, hj, h1, h]
    · by_cases h2 : j < oid + 1 <;> simp [hl, hj, h2, h]
  · simp [hl, h]

theorem OidMap.get_remove_self (m : OidMap) (oid : Nat) : (m.remove oid).get oid = none := by
  unfold OidMap.remove OidMap.get
  by_cases h : oid < m.len <;> simp [h]

theorem OidMap.get_remove_ne (m : OidMap) (oid j : Nat) (h : j ≠ oid) :
    (m.remove oid).get j = m.get j := by
  unfold OidMap.remove OidMap.get
  by_cases hl : oid < m.len <;> simp [hl, h]

theorem OidMap.get_update_qty_self (m : OidMap) (oid q : Nat) :
    (m.update_qty oid q).get oid = (m.get oid).map (fun o => { o with qty := o.qty - q }) := by
  unfold OidMap.update_qty OidMap.get
  by_cases h : oid < m.len <;> simp [h]

theorem OidMap.get_update_qty_ne (m : OidMap) (oid q j : Nat) (h : j ≠ oid) :
    (m.update_qty oid q).get j = m.get j := by
  unfold OidMap.update_qty OidMap.get
  by_cases hl : oid < m.len <;> simp [hl, h]

theorem OidMap.remove_missing (m : OidMap) (oid : Nat) (h : m.get oid = none) :
    m.remove oid = m := by
  unfold OidMap.remove
  by_cases hl : oid < m.len
  · have hd : m.data oid = none := by
      unfold OidMap.get at h
      simpa [hl] using h
    simp only [if_pos hl]
    cases m with
    | mk len data =>
      simp only [OidMap.mk.injEq, true_and]
      funext j
      by_cases hj : j = oid
      · subst hj
        simpa using hd.symm
      · simp [hj]
  · simp [hl]

theorem OidMap.update_qty_missing (m : OidMap) (oid q : Nat) (h : m.get oid = none) :
    m.update_qty oid q = m := by
  unfold OidMap.update_qty
  by_cases hl : oid < m.len
  · have hd : m.data oid = none := by
      unfold OidMap.get at h
      simpa [hl] using h
    simp only [if_pos hl]
    cases m with
    | mk len data =>
      simp only [OidMap.mk.injEq, true_and]
      funext j
      by_cases hj : j = oid
      · subst hj
        simp only [if_pos rfl]
        simp only at hd
        rw [hd]
        rfl
      · simp [hj]
  · simp [hl]

theorem OrderBookManager.getBook_lt (m : OrderBookManager) (i : Nat) (bk : OrderBook)
    (h : m.getBook i = some bk) : i < m.books_len := by
  unfold OrderBookManager.getBook at h
  by_cases hi : i < m.books_len
  · exact hi
  · simp [hi] at h

theorem OrderBookManager.getBook_setBook_self (m : OrderBookManager) (i : Nat) (b : OrderBook)
    (h : i < m.books_len) : (m.setBook i b).getBook i = some b := by
  unfold OrderBookManager.setBook OrderBookManager.getBook
  simp [h]

theorem OrderBookManager.setBook_oid_map (m : OrderBookManager) (i : Nat) (b : OrderBook) :
    (m.setBook i b).oid_map = m.oid_map := by
  unfold OrderBookManager.setBook
  by_cases h : i < m.books_len <;> simp [h]

theorem OrderBookManager.setBook_books_len (m : OrderBookManager) (i : Nat) (b : OrderBook) :
    (m.setBook i b).books_len = m.books_len := by
  unfold OrderBookManager.setBook
  by_cases h : i < m.books_len <;> simp [h]

theorem OrderBook.add_order_fst_book_id (b : OrderBook) (o : Order) (price : Int) (qty : Nat) :
    (b.add_order o price qty).1.book_id = o.book_id := by
  unfold OrderBook.add_order
  simp only []
  repeat' split
  all_goals rfl

theorem OrderBook.add_order_fst_qty (b : OrderBook) (o : Order) (price : Int) (qty : Nat) :
    (b.add_order o price qty).1.qty = o.qty := by
  unfold OrderBook.add_order
  simp only []
  repeat' split
  all_goals rfl

theorem OrderBook.add_order_fst_trader (b : OrderBook) (o : Order) (price : Int) (qty : Nat) :
    (b.add_order o price qty).1.trader = o.trader := by
  unfold OrderBook.add_order
  simp only []
  repeat' split
  all_goals rfl

theorem OrderBook.add_order_fst_nonce (b : OrderBook) (o : Order) (price : Int) (qty : Nat) :
    (b.add_order o price qty).1.nonce = o.nonce := by
  unfold OrderBook.add_order
  simp only []
  repeat' split
  all_goals rfl

theorem OrderBook.add_order_fst_expiry (b : OrderBook) (o : Order) (price : Int) (qty : Nat) :
    (b.add_order o price qty).1.expiry = o.expiry := by
  unfold OrderBook.add_order
  simp only []
  repeat' split
  all_goals rfl

theorem OrderBook.add_order_fst_signature (b : OrderBook) (o : Order) (price : Int) (qty : Nat) :
    (b.add_order o price qty).1.signature = o.signature := by
  unfold OrderBook.add_order
  simp only []
  repeat' split
  all_goals rfl

theorem OrderBookManager.add_order_get_self (m : OrderBookManager)
    (oid book q p : Nat) (bid : Bool) (tr : Option (List Nat)) (non ex : Option Nat)
    (sg : Option (List Nat)) :
    ((m.add_order oid book q p bid tr non ex sg).oid_map.get oid).map
        (fun o => (o.book_id, o.qty, o.trader, o.nonce, o.expiry, o.signature)) =
      some (book, q, tr, non, ex, sg) := by
  unfold OrderBookManager.add_order
  simp only []
  repeat' split
  all_goals
    simp [OrderBookManager.setBook_oid_map, OidMap.get_insert_self,
      OrderBook.add_order_fst_book_id, OrderBook.add_order_fst_qty,
      OrderBook.add_order_fst_trader, OrderBook.add_order_fst_nonce,
      OrderBook.add_order_fst_expiry, OrderBook.add_order_fst_signature, Order.new]

theorem OrderBookManager.add_order_get_ne (m : OrderBookManager)
    (oid book q p : Nat) (bid : Bool) (tr : Option (List Nat)) (non ex : Option Nat)
    (sg : Option (List Nat)) (j : Nat) (h : j ≠ oid) :
    (m.add_order oid book q p bid tr non ex sg).oid_map.get j = m.oid_map.get j := by
  unfold OrderBookManager.add_order
  simp only []
  repeat' split
  all_goals
    simp [OrderBookManager.setBook_oid_map, OidMap.get_insert_ne, OidMap.get_reserve, h]

theorem Order.fields_of_map_eq {o? : Option Order} {book q : Nat} {tr : Option (List Nat)}
    {non ex : Option Nat} {sg : Option (List Nat)}
    (h : o?.map (fun o => (o.book_id, o.qty, o.trader, o.nonce, o.expiry, o.signature)) =
      some (book, q, tr, non, ex, sg)) :
    ∃ o, o? = some o ∧ o.book_id = book ∧ o.qty = q ∧ o.trader = tr ∧ o.nonce = non ∧
      o.expiry = ex ∧ o.signature = sg := by
  cases o? with
  | none => exact Option.noConfusion h
  | some o =>
    refine ⟨o, rfl, ?_⟩
    simpa using h

/-- Claim C3 counterexample: replace_order on an OrderId that is not live is
not a no-op — it still adds the replacement order (here under id 7) to the
index of a fresh manager. -/
theorem c3_replace_missing_not_noop :
    (OrderBookManager.new).oid_map.get 5 = none ∧
    ((OrderBookManager.new).replace_order 5 7 10 100).oid_map.get 7 ≠ none := by
  constructor
  · decide
  · decide

/-- Claim C3 (amended): for an OrderId that is not live, remove_order,
cancel_order and execute_order return the state unchanged, while
replace_order still adds the replacement order under the new id with the
default captured side (bid) and book 0. -/
theorem c3_missing_oid_spec (m : OrderBookManager) (oid q nid nq np : Nat)
    (h : m.oid_map.get oid = none) :
    m.remove_order oid = m ∧ m.cancel_order oid q = m ∧ m.execute_order oid q = m ∧
    m.replace_order oid nid nq np = m.add_order nid 0 nq np true none none none none := by
  refine ⟨?_, ?_, ?_, ?_⟩
  · unfold OrderBookManager.remove_order
    rw [h]
    dsimp only
    rw [OidMap.remove_missing _ _ h]
  · unfold OrderBookManager.cancel_order
    rw [h]
    dsimp only
    rw [OidMap.update_qty_missing _ _ _ h]
  · unfold OrderBookManager.execute_order
    rw [h]
  · unfold OrderBookManager.replace_order
    rw [h]

/-- Claim C3 witness: the amended statement instantiated on a fresh manager
and the missing id 5. -/
theorem c3_missing_oid_witness :
    (OrderBookManager.new).remove_order 5 = OrderBookManager.new ∧
    (OrderBookManager.new).cancel_order 5 3 = OrderBookManager.new ∧
    (OrderBookManager.new).execute_order 5 3 = OrderBookManager.new ∧
    (OrderBookManager.new).replace_order 5 7 10 100 =
      (OrderBookManager.new).add_order 7 0 10 100 true none none none none :=
  c3_missing_oid_spec OrderBookManager.new 5 3 7 10 100 (by decide)

/-- Claim C10: a full-quantity cancel leaves the order in the index with
quantity zero instead of removing it. -/
theorem c10_cancel_full_spec (m : OrderBookManager) (oid : Nat) (o : Order)
    (h : m.oid_map.get oid = some o) :
    (m.cancel_order oid o.qty).oid_map.get oid = some { o with qty := 0 } := by
  unfold OrderBookManager.cancel_order
  rw [h]
  dsimp only
  rcases hbk : m.getBook o.book_id with _ | bk <;>
    simp [hbk, OrderBookManager.setBook_oid_map, OidMap.get_update_qty_self, h, Nat.sub_self]

/-- Claim C10 witness: cancelling the full quantity 100 of order 1 in the
basic-fill book leaves it live with quantity zero. -/
theorem c10_cancel_full_witness :
    (basicFillState.cancel_order 1 100).oid_map.get 1 =
      some ⟨0, 0, 0, some (List.replicate 20 1), some 1, some (2 ^ 64 - 1),
        some (List.replicate 65 0)⟩ :=
  c10_cancel_full_spec basicFillState 1 bfOrder (by decide)

/-- Claim C6: on a live order, execute_order with the order's full quantity
removes it from its book (routing the book's remove_order) and erases it from
the index; with a strictly smaller quantity it routes the book's reduce_order
and decreases the indexed quantity by exactly that amount, keeping the order
live. The function returns only the state, so no match record is emitted. -/
theorem c6_execute_order_spec (m : OrderBookManager) (oid q : Nat) (o : Order) (bk : OrderBook)
    (ho : m.oid_map.get oid = some o) (hbk : m.getBook o.book_id = some bk) :
    (o.qty = q →
      (m.execute_order oid q).oid_map.get oid = none ∧
      (m.execute_order oid q).getBook o.book_id = some (bk.remove_order o)) ∧
    (q < o.qty →
      (m.execute_order oid q).oid_map.get oid = some { o with qty := o.qty - q } ∧
      (m.execute_order oid q).getBook o.book_id = some (bk.reduce_order o q)) := by
  have hlt : o.book_id < m.books_len := OrderBookManager.getBook_lt m _ bk hbk
  constructor
  · intro hq
    unfold OrderBookManager.execute_order
    rw [ho]
    dsimp only
    rw [if_pos hq, hbk]
    dsimp only
    constructor
    · simp [OidMap.get_remove_self]
    · show (m.setBook o.book_id (bk.remove_order o)).getBook o.book_id = _
      exact OrderBookManager.getBook_setBook_self _ _ _ hlt
  · intro hq
    have hne : ¬ o.qty = q := by omega
    unfold OrderBookManager.execute_order
    rw [ho]
    dsimp only
    rw [if_neg hne, hbk]
    dsimp only
    constructor
    · simp [OrderBookManager.setBook_oid_map, OidMap.get_update_qty_self, ho]
    · show (m.setBook o.book_id (bk.reduce_order o q)).getBook o.book_id = _
      exact OrderBookManager.getBook_setBook_self _ _ _ hlt

/-- Claim C6 witness: a partial execution of 60 against the resting qty-100
order leaves it live with quantity 40. -/
theorem c6_execute_order_witness :
    (basicFillState.execute_order 1 60).oid_map.get 1 =
      some { bfOrder with qty := bfOrder.qty - 60 } :=
  ((c6_execute_order_spec basicFillState 1 60 bfOrder bfBook (by decide) (by decide)).2
    (by decide)).1

/-- Claim C5: replace_order on a live order captures the side from the sign of
its Level's price and the book from the order, removes the old order from book
and index, and routes to add_order with the new id, quantity and external
price and no authentication fields; afterwards the old id is gone and the new
id carries the captured book, the new quantity and no authentication. -/
theorem c5_replace_order_spec (m : OrderBookManager) (oid nid nq np : Nat) (o : Order)
    (bk : OrderBook) (lvl : Level)
    (hne : nid ≠ oid)
    (ho : m.oid_map.get oid = some o)
    (hbk : m.getBook o.book_id = some bk)
    (hlvl : bk.level_pool.get o.level_id = some lvl) :
    m.replace_order oid nid nq np =
      ({ m.setBook o.book_id (bk.remove_order o) with
          oid_map := (m.setBook o.book_id (bk.remove_order o)).oid_map.remove oid
        }).add_order nid o.book_id nq np (Price.is_bid lvl.price) none none none none ∧
    (m.replace_order oid nid nq np).oid_map.get oid = none ∧
    ∃ o', (m.replace_order oid nid nq np).oid_map.get nid = some o' ∧
      o'.book_id = o.book_id ∧ o'.qty = nq ∧ o'.trader = none ∧ o'.nonce = none ∧
      o'.expiry = none ∧ o'.signature = none := by
  have heq : m.replace_order oid nid nq np =
      ({ m.setBook o.book_id (bk.remove_order o) with
          oid_map := (m.setBook o.book_id (bk.remove_order o)).oid_map.remove oid
        }).add_order nid o.book_id nq np (Price.is_bid lvl.price) none none none none := by
    unfold OrderBookManager.replace_order
    rw [ho]
    dsimp only
    rw [hbk]
    dsimp only
    rw [hlvl]
    rfl
  refine ⟨heq, ?_, ?_⟩
  · rw [heq, OrderBookManager.add_order_get_ne _ _ _ _ _ _ _ _ _ _ _ (Ne.symm hne)]
    simp [OrderBookManager.setBook_oid_map, OidMap.get_remove_self]
  · rw [heq]
    exact Order.fields_of_map_eq (OrderBookManager.add_order_get_self _ _ _ _ _ _ _ _ _ _)

/-- Claim C5 witness: spec scenario 5, replace the bid id 1 (qty 10, price 50)
by id 2 with qty 20 and price 55; the new order carries the book, the new
quantity and no authentication fields. -/
theorem c5_replace_order_witness :
    ∃ o', (bidReplaceState.replace_order 1 2 20 55).oid_map.get 2 = some o' ∧
      o'.book_id = brOrder.book_id ∧ o'.qty = 20 ∧ o'.trader = none ∧ o'.nonce = none ∧
      o'.expiry = none ∧ o'.signature = none :=
  (c5_replace_order_spec bidReplaceState 1 2 20 55 brOrder brBook ⟨50, 10⟩ (by decide)
    (by decide) (by decide) (by decide)).2.2

/-- Claim C1 (code bug): in the walk-the-book scenario (resting sells qty=50 at
100 and qty=40 at 101, taker buy qty=90 at 102) the taker fully executes both
makers (remaining 0, both ids erased, ask side empty) yet the returned match
list is empty, because match_order looks the maker up in the index only after
execute_order has removed it; the spec requires two records with the maker
snapshotted before the mutation. -/
theorem c1_walk_the_book_loses_match_records :
    walkBookResult.1 = 0 ∧ walkBookResult.2.1 = [] ∧
    walkBookResult.2.2.oid_map.get 1 = none ∧ walkBookResult.2.2.oid_map.get 2 = none ∧
    (walkBookResult.2.2.getBook 0).map OrderBook.asks = some [] := by
  refine ⟨by decide, by decide, by decide, by decide, by decide⟩

theorem translate_to_settlement_eq (mo tk : Order) (q p : Nat) (b : Bool) (cfg : MarketConfig) :
    translate_to_settlement mo tk q p b cfg =
      if mo.trader.isSome && mo.signature.isSome && mo.nonce.isSome && mo.expiry.isSome &&
          tk.trader.isSome && tk.signature.isSome
      then some (mkSettlement mo tk q p b cfg) else none := by
  obtain ⟨lid, bid, qo, tr, non, ex, sg⟩ := mo
  obtain ⟨lid2, bid2, qo2, tr2, non2, ex2, sg2⟩ := tk
  cases b <;> cases tr <;> cases non <;> cases ex <;> cases sg <;> cases tr2 <;> cases sg2 <;>
    simp [translate_to_settlement, mkSettlement]

/-- Claim C4 counterexample: a match whose taker lacks nonce and expiry (but
has trader and signature, with a fully authenticated maker) is NOT dropped by
translate_matches, contradicting the claim that a missing nonce or expiry on
either side drops the match. -/
theorem c4_taker_nonce_not_required :
    mdTakerNoNonce.taker_order.nonce = none ∧ mdTakerNoNonce.taker_order.expiry = none ∧
    translate_matches [mdTakerNoNonce] cfg0 ≠ [] := by
  refine ⟨by decide, by decide, by decide⟩

/-- Claim C4 (amended): translate_matches drops a match exactly when the maker
lacks trader, signature, nonce or expiry, or the taker lacks trader or
signature (the taker's nonce and expiry are never read); the output is the
order-preserving image of the kept matches. -/
theorem c4_translate_matches_spec (ms : List MatchDetails) (cfg : MarketConfig) :
    translate_matches ms cfg =
      (ms.filter (fun md => translateRequired md)).map
        (fun md => mkSettlement md.maker_order md.taker_order md.exec_qty md.exec_price
          md.maker_is_buyer cfg) := by
  induction ms with
  | nil => rfl
  | cons md rest ih =>
    simp only [translate_matches] at ih ⊢
    rw [List.filterMap_cons, translate_to_settlement_eq]
    by_cases h : translateRequired md = true
    · rw [show (md.maker_order.trader.isSome && md.maker_order.signature.isSome &&
          md.maker_order.nonce.isSome && md.maker_order.expiry.isSome &&
          md.taker_order.trader.isSome && md.taker_order.signature.isSome) =
          translateRequired md from rfl, h]
      simp [List.filter_cons, h, ih]
    · rw [show (md.maker_order.trader.isSome && md.maker_order.signature.isSome &&
          md.maker_order.nonce.isSome && md.maker_order.expiry.isSome &&
          md.taker_order.trader.isSome && md.taker_order.signature.isSome) =
          translateRequired md from rfl]
      simp only [Bool.not_eq_true] at h
      simp [List.filter_cons, h, ih]

/-- Claim C9: on a successful translation the settlement amounts are the exact
products and quantities prescribed by maker_is_buyer, computed without
overflow for u32 price and quantity, and expiration and salt come from the
maker's expiry and nonce. -/
theorem c9_settlement_amounts_spec (mo tk : Order) (q p : Nat) (b : Bool) (cfg : MarketConfig)
    (st : SettlementOrder) (hq : q < 2 ^ 32) (hp : p < 2 ^ 32)
    (h : translate_to_settlement mo tk q p b cfg = some st) :
    st.maker_amount = (if b then p * q else q) ∧
    st.taker_amount = (if b then q else p * q) ∧
    some st.expiration = mo.expiry ∧ some st.salt = mo.nonce := by
  have hlt : p * q < 2 ^ 128 := by
    calc p * q ≤ 2 ^ 32 * q := Nat.mul_le_mul_right q (Nat.le_of_lt hp)
    _ ≤ 2 ^ 32 * 2 ^ 32 := Nat.mul_le_mul_left _ (Nat.le_of_lt hq)
    _ < 2 ^ 128 := by norm_num
  rw [translate_to_settlement_eq] at h
  split at h
  · rename_i hc
    have hst := Option.some.inj h
    subst hst
    simp only [Bool.and_eq_true] at hc
    obtain ⟨⟨⟨⟨⟨h1, h2⟩, h3⟩, h4⟩, h5⟩, h6⟩ := hc
    have hmod : (p * q) % 2 ^ 128 = p * q := Nat.mod_eq_of_lt hlt
    refine ⟨?_, ?_, ?_, ?_⟩
    · cases b <;> simp [mkSettlement, hmod] <;> exact hlt
    · cases b <;> simp [mkSettlement, hmod] <;> exact hlt
    · obtain ⟨e, he⟩ := Option.isSome_iff_exists.mp h4
      simp [mkSettlement, he]
    · obtain ⟨n, hn⟩ := Option.isSome_iff_exists.mp h3
      simp [mkSettlement, hn]
  · exact Option.noConfusion h

/-- Claim C9 witness: the fully authenticated match (qty 30 at price 100,
maker selling) translates with maker_amount 30, taker_amount 3000,
expiration 7 and salt 1. -/
theorem c9_settlement_amounts_witness :
    stFull.maker_amount = (if false then 100 * 30 else 30) ∧
    stFull.taker_amount = (if false then 30 else 100 * 30) ∧
    some stFull.expiration = makerOrder0.expiry ∧ some stFull.salt = makerOrder0.nonce :=
  c9_settlement_amounts_spec makerOrder0 takerFullOrder 30 100 false cfg0 stFull (by decide)
    (by decide) (by decide)

theorem matchLoop_mem_spec (book q0 : Nat) (price : Int) (b : Bool)
    (tr : Option (List Nat)) (non ex : Option Nat) (sg : Option (List Nat)) :
    ∀ (fuel : Nat) (m : OrderBookManager) (remaining : Nat) (md : MatchDetails),
      md ∈ (matchLoop book q0 price b tr non ex sg fuel m remaining).2.1 →
      md.taker_order = Order.new q0 0 book tr non ex sg ∧
      md.exec_price = Price.absolute price % 2 ^ 32 ∧ md.maker_is_buyer = !b := by
  intro fuel
  induction fuel with
  | zero =>
    intro m remaining md hmd
    simp [matchLoop] at hmd
  | succ fuel ih =>
    intro m remaining md hmd
    rw [matchLoop] at hmd
    by_cases hr : remaining > 0
    · rw [if_pos hr] at hmd
      rcases hnm : m.get_next_match book b price with _ | rm
      · rw [hnm] at hmd
        simp at hmd
      · rw [hnm] at hmd
        dsimp only at hmd
        rcases hmk : (m.execute_order rm.1 (min remaining rm.2)).oid_map.get rm.1 with _ | maker
        · rw [hmk] at hmd
          dsimp only at hmd
          exact ih _ _ md hmd
        · rw [hmk] at hmd
          dsimp only at hmd
          rcases List.mem_append.mp hmd with hin | hin
          · rcases List.mem_singleton.mp hin with rfl
            exact ⟨rfl, rfl, rfl⟩
          · exact ih _ _ md hin
    · rw [if_neg hr] at hmd
      simp at hmd

theorem absolute_from_u32_mod (p : Nat) (b : Bool) (hp : p < 2 ^ 31) :
    Price.absolute (Price.from_u32 p b) % 2 ^ 32 = p := by
  have h32 : p % 2 ^ 32 = p := Nat.mod_eq_of_lt (by omega)
  have hu : u32_as_i32 p = (p : Int) := by
    unfold u32_as_i32
    rw [h32, if_pos hp]
  cases b <;> simp [Price.from_u32, Price.absolute, hu, h32] <;> omega

theorem match_order_details_cases (m : OrderBookManager) (oid book q p : Nat) (b : Bool)
    (tr : Option (List Nat)) (non ex : Option Nat) (sg : Option (List Nat)) (fuel : Nat) :
    (MatchingEngine.match_order m oid book q p b tr non ex sg fuel).2.1 = [] ∨
    (MatchingEngine.match_order m oid book q p b tr non ex sg fuel).2.1 =
      (matchLoop book q (Price.from_u32 p b) b tr non ex sg fuel m q).2.1 := by
  unfold MatchingEngine.match_order
  simp only []
  repeat' split
  all_goals first
    | exact Or.inl rfl
    | exact Or.inr rfl

/-- Claim C7: every match record emitted by match_order carries the taker's
external limit price as exec_price, the negated taker side as maker_is_buyer,
and a taker_order with the original quantity, the taker's authentication
tuple and the sentinel level handle 0. -/
theorem c7_match_details_fields_spec (m : OrderBookManager) (oid book q p : Nat) (b : Bool)
    (tr : Option (List Nat)) (non ex : Option Nat) (sg : Option (List Nat)) (fuel : Nat)
    (hp : p < 2 ^ 31) :
    ∀ md ∈ (MatchingEngine.match_order m oid book q p b tr non ex sg fuel).2.1,
      md.exec_price = p ∧ md.maker_is_buyer = !b ∧ md.taker_order.qty = q ∧
      md.taker_order.trader = tr ∧ md.taker_order.nonce = non ∧ md.taker_order.expiry = ex ∧
      md.taker_order.signature = sg ∧ md.taker_order.level_id = 0 := by
  intro md hmd
  rcases match_order_details_cases m oid book q p b tr non ex sg fuel with hcase | hcase
  · rw [hcase] at hmd
    simp at hmd
  · rw [hcase] at hmd
    obtain ⟨h1, h2, h3⟩ :=
      matchLoop_mem_spec book q (Price.from_u32 p b) b tr non ex sg fuel m q md hmd
    refine ⟨h2.trans (absolute_from_u32_mod p b hp), h3, ?_, ?_, ?_, ?_, ?_, ?_⟩ <;>
      rw [h1] <;> rfl

/-- Claim C7 witness: the record the basic-fill taker (buy 60 at 100) emits
carries the taker's price, side, original quantity, authentication tuple and
sentinel level handle. -/
theorem c7_match_details_fields_witness :
    mdBasic.exec_price = 100 ∧ mdBasic.maker_is_buyer = !true ∧ mdBasic.taker_order.qty = 60 ∧
    mdBasic.taker_order.trader = some (List.replicate 20 2) ∧
    mdBasic.taker_order.nonce = some 2 ∧ mdBasic.taker_order.expiry = some (2 ^ 64 - 1) ∧
    mdBasic.taker_order.signature = some (List.replicate 65 0) ∧
    mdBasic.taker_order.level_id = 0 :=
  c7_match_details_fields_spec basicFillState 2 0 60 100 true (some (List.replicate 20 2))
    (some 2) (some (2 ^ 64 - 1)) (some (List.replicate 65 0)) 61 (by decide) mdBasic (by decide)

theorem oidMatchesLevel_lt_len (m : OidMap) (book lv k : Nat)
    (h : oidMatchesLevel m book lv k = true) : k < m.len := by
  unfold oidMatchesLevel at h
  rcases hg : m.get k with _ | o
  · rw [hg] at h
    exact Bool.noConfusion h
  · unfold OidMap.get at hg
    by_cases hk : k < m.len
    · exact hk
    · rw [if_neg hk] at hg
      exact Option.noConfusion hg

theorem oidMatchesLevel_false_none (m : OidMap) (book lv i : Nat) (hg : m.get i = none) :
    oidMatchesLevel m book lv i = false := by
  simp [oidMatchesLevel, hg]

theorem oidMatchesLevel_false_of (m : OidMap) (book lv i : Nat) (o : Order)
    (hg : m.get i = some o) (hif : ¬(o.book_id = book ∧ o.level_id = lv)) :
    oidMatchesLevel m book lv i = false := by
  unfold oidMatchesLevel
  rw [hg]
  by_cases hb : o.book_id = book
  · have hl : o.level_id ≠ lv := fun hlv => hif ⟨hb, hlv⟩
    simp [hb, hl]
  · simp [hb]

theorem scanMatch_some_spec (m : OidMap) (book lv : Nat) :
    ∀ (fuel i j q : Nat), scanMatch m book lv fuel i = some (j, q) →
      i ≤ j ∧ oidMatchesLevel m book lv j = true ∧ (m.get j).map Order.qty = some q ∧
      ∀ k, i ≤ k → k < j → oidMatchesLevel m book lv k = false := by
  intro fuel
  induction fuel with
  | zero =>
    intro i j q h
    simp [scanMatch] at h
  | succ fuel ih =>
    intro i j q h
    rw [scanMatch] at h
    rcases hg : m.get i with _ | o
    · rw [hg] at h
      obtain ⟨h1, h2, h3, h4⟩ := ih (i + 1) j q h
      refine ⟨by omega, h2, h3, ?_⟩
      intro k hk1 hk2
      rcases Nat.eq_or_lt_of_le hk1 with rfl | hlt
      · exact oidMatchesLevel_false_none m book lv i hg
      · exact h4 k (by omega) hk2
    · rw [hg] at h
      dsimp only at h
      by_cases hif : o.book_id = book ∧ o.level_id = lv
      · rw [if_pos hif] at h
        have hji : i = j ∧ o.qty = q := by
          have := Option.some.inj h
          exact ⟨congrArg Prod.fst this, congrArg Prod.snd this⟩
        obtain ⟨rfl, rfl⟩ := hji
        refine ⟨Nat.le_refl _, ?_, ?_, ?_⟩
        · simp [oidMatchesLevel, hg, hif.1, hif.2]
        · simp [hg]
        · intro k hk1 hk2
          omega
      · rw [if_neg hif] at h
        obtain ⟨h1, h2, h3, h4⟩ := ih (i + 1) j q h
        refine ⟨by omega, h2, h3, ?_⟩
        intro k hk1 hk2
        rcases Nat.eq_or_lt_of_le hk1 with rfl | hlt
        · exact oidMatchesLevel_false_of m book lv i o hg hif
        · exact h4 k (by omega) hk2

theorem scanMatch_none_spec (m : OidMap) (book lv : Nat) :
    ∀ (fuel i : Nat), scanMatch m book lv fuel i = none →
      ∀ k, i ≤ k → k < i + fuel → oidMatchesLevel m book lv k = false := by
  intro fuel
  induction fuel with
  | zero =>
    intro i h k hk1 hk2
    omega
  | succ fuel ih =>
    intro i h k hk1 hk2
    rw [scanMatch] at h
    rcases hg : m.get i with _ | o
    · rw [hg] at h
      rcases Nat.eq_or_lt_of_le hk1 with rfl | hlt
      · exact oidMatchesLevel_false_none m book lv i hg
      · exact ih (i + 1) h k (by omega) (by omega)
    · rw [hg] at h
      dsimp only at h
      by_cases hif : o.book_id = book ∧ o.level_id = lv
      · rw [if_pos hif] at h
        exact Option.noConfusion h
      · rw [if_neg hif] at h
        rcases Nat.eq_or_lt_of_le hk1 with rfl | hlt
        · exact oidMatchesLevel_false_of m book lv i o hg hif
        · exact ih (i + 1) h k (by omega) (by omega)

/-- Claim C2: get_next_match returns none when the book or the opposite best
level is missing or the top level does not cross, and otherwise returns
exactly the (lowest-OrderId) live order on that level in that book together
with its quantity. -/
theorem c2_get_next_match_spec (m : OrderBookManager) (book : Nat) (b : Bool) (p : Int) :
    (m.getBook book = none → m.get_next_match book b p = none) ∧
    (∀ bk, m.getBook book = some bk →
      (if b then bk.get_best_ask_level else bk.get_best_bid_level) = none →
      m.get_next_match book b p = none) ∧
    (∀ bk lv lvl, m.getBook book = some bk →
      (if b then bk.get_best_ask_level else bk.get_best_bid_level) = some lv →
      bk.level_pool.get lv = some lvl →
      ¬(if b then Price.absolute lvl.price ≤ Price.absolute p
        else Price.absolute p ≤ Price.absolute lvl.price) →
      m.get_next_match book b p = none) ∧
    (∀ bk lv lvl, m.getBook book = some bk →
      (if b then bk.get_best_ask_level else bk.get_best_bid_level) = some lv →
      bk.level_pool.get lv = some lvl →
      (if b then Price.absolute lvl.price ≤ Price.absolute p
        else Price.absolute p ≤ Price.absolute lvl.price) →
      ∀ j q, (m.get_next_match book b p = some (j, q) ↔ leastMatchAt m.oid_map book lv j q)) := by
  refine ⟨?_, ?_, ?_, ?_⟩
  · intro h
    unfold OrderBookManager.get_next_match
    rw [h]
  · intro bk hbk hlv
    unfold OrderBookManager.get_next_match
    rw [hbk]
    dsimp only
    rw [hlv]
  · intro bk lv lvl hbk hlv hlvl hcross
    unfold OrderBookManager.get_next_match
    rw [hbk]
    dsimp only
    rw [hlv]
    dsimp only
    rw [hlvl]
    dsimp only
    cases b
    · simp only [Bool.false_eq_true, if_false] at hcross
      simp [hcross]
    · simp only [if_true] at hcross
      simp [hcross]
  · intro bk lv lvl hbk hlv hlvl hcross j q
    have hscan_eq : m.get_next_match book b p = scanMatch m.oid_map book lv m.oid_map.len 0 := by
      unfold OrderBookManager.get_next_match
      rw [hbk]
      dsimp only
      rw [hlv]
      dsimp only
      rw [hlvl]
      dsimp only
      cases b
      · simp only [Bool.false_eq_true, if_false] at hcross
        simp [hcross]
      · simp only [if_true] at hcross
        simp [hcross]
    rw [hscan_eq]
    constructor
    · intro hs
      obtain ⟨h1, h2, h3, h4⟩ := scanMatch_some_spec m.oid_map book lv m.oid_map.len 0 j q hs
      exact ⟨h2, h3, fun k hk => h4 k (Nat.zero_le k) hk⟩
    · rintro ⟨ha, hb, hc⟩
      rcases hscan : scanMatch m.oid_map book lv m.oid_map.len 0 with _ | jq
      · exfalso
        have hj : j < m.oid_map.len := oidMatchesLevel_lt_len m.oid_map book lv j ha
        have hfalse := scanMatch_none_spec m.oid_map book lv m.oid_map.len 0 hscan j
          (Nat.zero_le j) (by omega)
        rw [hfalse] at ha
        exact Bool.noConfusion ha
      · obtain ⟨j', q'⟩ := jq
        obtain ⟨h1, h2, h3, h4⟩ := scanMatch_some_spec m.oid_map book lv m.oid_map.len 0 j' q' hscan
        have hjj : j' = j := by
          rcases Nat.lt_trichotomy j' j with hlt | he | hgt
          · exfalso
            have := hc j' hlt
            rw [this] at h2
            exact Bool.noConfusion h2
          · exact he
          · exfalso
            have := h4 j (Nat.zero_le j) hgt
            rw [this] at ha
            exact Bool.noConfusion ha
        subst hjj
        have hq : q' = q := by
          rw [h3] at hb
          exact Option.some.inj hb
        rw [hq]

/-- Claim C2 witness: in the walk-the-book book (asks at 100 and 101), a bid
probe at signed +102 finds the earliest order (id 1, qty 50) at the best ask
level. -/
theorem c2_get_next_match_witness :
    walkBookState.get_next_match 0 true 102 = some (1, 50) :=
  ((c2_get_next_match_spec walkBookState 0 true 102).2.2.2 walkBookAskBook 0 ⟨-100, 50⟩
    (by decide) (by decide) (by decide) (by decide) 1 50).mpr (by decide)

/-- Claim C8 counterexample: a signature hex of 132 digits decodes to 66 bytes,
more than 65, yet into_order accepts the submission (truncating the
signature) instead of returning an error. -/
theorem c8_long_signature_accepted :
    (hexDecode (trim0x sub66.signature)).map List.length = some 66 ∧
    (into_order sub66).toOption =
      some ⟨10, 5, 97, List.replicate 20 17, 1, 2 ^ 64 - 1, List.replicate 65 34⟩ := by
  constructor
  · decide
  · decide

/-- Claim C8 (amended): into_order errors exactly when the quantity is zero,
the price is zero, the trader hex does not decode to exactly 20 bytes, or the
signature is not valid hex; a signature decoding to more than 65 bytes is not
an error but is truncated to its first 65 bytes. On success the stored
signature is the decoded bytes truncated to at most 65 and zero-padded to 65,
and an absent expiry becomes the maximum u64. -/
theorem c8_into_order_spec (sub : OrderSubmission) :
    ((∃ e, into_order sub = Except.error e) ↔
      (sub.quantity = 0 ∨ sub.price = 0 ∨
       (∀ bs, hexDecode (trim0x sub.trader) = some bs → bs.length ≠ 20) ∨
       hexDecode (trim0x sub.signature) = none)) ∧
    (∀ o, into_order sub = Except.ok o →
      o.signature = ((hexDecode (trim0x sub.signature)).getD []).take
          (min ((hexDecode (trim0x sub.signature)).getD []).length 65) ++
        List.replicate (65 - min ((hexDecode (trim0x sub.signature)).getD []).length 65) 0 ∧
      o.expiry = sub.expiry.getD (2 ^ 64 - 1)) := by
  unfold into_order
  by_cases h1 : sub.quantity = 0
  · rw [if_pos h1]
    exact ⟨⟨fun _ => Or.inl h1, fun _ => ⟨_, rfl⟩⟩, fun o ho => Except.noConfusion ho⟩
  · rw [if_neg h1]
    by_cases h2 : sub.price = 0
    · rw [if_pos h2]
      exact ⟨⟨fun _ => Or.inr (Or.inl h2), fun _ => ⟨_, rfl⟩⟩,
        fun o ho => Except.noConfusion ho⟩
    · rw [if_neg h2]
      rcases ht : hexDecode (trim0x sub.trader) with _ | tb
      · refine ⟨⟨fun _ => Or.inr (Or.inr (Or.inl ?_)), fun _ => ⟨_, rfl⟩⟩,
          fun o ho => Except.noConfusion ho⟩
        intro bs hbs
        exact Option.noConfusion hbs
      · dsimp only
        by_cases hl : tb.length ≠ 20
        · rw [if_pos hl]
          refine ⟨⟨fun _ => Or.inr (Or.inr (Or.inl ?_)), fun _ => ⟨_, rfl⟩⟩,
            fun o ho => Except.noConfusion ho⟩
          intro bs hbs
          rw [← Option.some.inj hbs]
          exact hl
        · rw [if_neg hl]
          rcases hs : hexDecode (trim0x sub.signature) with _ | sb
          · exact ⟨⟨fun _ => Or.inr (Or.inr (Or.inr rfl)), fun _ => ⟨_, rfl⟩⟩,
              fun o ho => Except.noConfusion ho⟩
          · dsimp only [bookIdFromStr]
            constructor
            · constructor
              · rintro ⟨e, he⟩
                exact Except.noConfusion he
              · rintro (h | h | h | h)
                · exact absurd h h1
                · exact absurd h h2
                · exact absurd (h tb rfl) hl
                · exact Option.noConfusion h
            · intro o ho
              rw [← Except.ok.inj ho]
              exact ⟨rfl, rfl⟩

/-- Claim C8 witness: a zero-quantity submission is rejected, through the
amended characterization. -/
theorem c8_into_order_witness : ∃ e, into_order subZeroQty = Except.error e :=
  (c8_into_order_spec subZeroQty).1.mpr (Or.inl rfl)
